import Mathlib

/-!
Verification of the TrendRadar MCP-server core against its specification.

This file shallowly embeds the Python modules
`mcp_server/services/cache_service.py`, `mcp_server/services/parser_service.py`,
`mcp_server/utils/date_parser.py`, `mcp_server/tools/search_tools.py` and
`mcp_server/tools/analytics.py` as executable Lean definitions, and proves or
refutes the specification claims about them.

Modelling conventions:
* Python floats are modelled as exact rationals (`ℚ`).
* Python `dict`s (which preserve insertion order, and where assignment to an
  existing key replaces the value in place) are modelled as association lists
  with an in-place-replacing insert (`dictInsert`).
* Wall-clock times are explicit `ℚ` parameters (`now`).
* File-system access is replaced by passing file contents / a day-indexed
  corpus explicitly.
-/

namespace TrendRadar

/-! ### Ordered dictionaries (Python `dict` as association list) -/

/-- Lookup in an ordered dictionary (first binding wins; bindings are unique
whenever the dictionary was built by `dictInsert`). -/
def dictLookup {α β : Type} [DecidableEq α] : List (α × β) → α → Option β
  | [], _ => none
  | (k, v) :: t, key => if k = key then some v else dictLookup t key

/-- Python `d[k] = v`: replaces the binding in place if `k` is present,
otherwise appends it at the end (insertion order preserved). -/
def dictInsert {α β : Type} [DecidableEq α] : List (α × β) → α → β → List (α × β)
  | [], key, v => [(key, v)]
  | (k, w) :: t, key, v =>
    if k = key then (key, v) :: t else (k, w) :: dictInsert t key v

/-- Keys of an ordered dictionary. -/
def dictKeys {α β : Type} (d : List (α × β)) : List α := d.map Prod.fst

/-- The dictionary binds each key at most once. -/
def DictNodup {α β : Type} (d : List (α × β)) : Prop := (dictKeys d).Nodup

/-! ### CacheService (`mcp_server/services/cache_service.py`)

The class keeps two dicts `_cache` and `_timestamps`; we model them as two
partial maps from keys to values resp. store times.  The per-operation lock
serialises operations, so each method is a pure state transformer. -/

structure CacheService (V : Type) where
  cache : String → Option V
  timestamps : String → Option ℚ

/-- The freshly constructed cache: both dicts empty. -/
def CacheService.empty (V : Type) : CacheService V :=
  { cache := fun _ => none, timestamps := fun _ => none }

/-- `CacheService.get(key, ttl)`: if the key is present and
`now - storedAt < ttl` return the value, otherwise delete the entry (from both
dicts) and return `None`.  The `timestamps`-missing branch is unreachable when
the two dicts have the same keys (in Python it would raise `KeyError`). -/
def CacheService.get {V : Type} (s : CacheService V) (key : String) (ttl now : ℚ) :
    Option V × CacheService V :=
  match s.cache key with
  | none => (none, s)
  | some v =>
    match s.timestamps key with
    | none => (none, s)
    | some t =>
      if now - t < ttl then (some v, s)
      else
        (none,
          { cache := fun k => if k = key then none else s.cache k
            timestamps := fun k => if k = key then none else s.timestamps k })

/-- `CacheService.set(key, value)`: store the value with `storedAt = now`,
overwriting any prior entry. -/
def CacheService.set {V : Type} (s : CacheService V) (key : String) (v : V) (now : ℚ) :
    CacheService V :=
  { cache := fun k => if k = key then some v else s.cache k
    timestamps := fun k => if k = key then some now else s.timestamps k }

/-- `CacheService.delete(key)`: remove the entry from both dicts, returning
whether it was present. -/
def CacheService.delete {V : Type} (s : CacheService V) (key : String) :
    Bool × CacheService V :=
  match s.cache key with
  | none => (false, s)
  | some _ =>
    (true,
      { cache := fun k => if k = key then none else s.cache k
        timestamps := fun k => if k = key then none else s.timestamps k })

/-- `CacheService.clear()`: empty both dicts. -/
def CacheService.clear {V : Type} (_ : CacheService V) : CacheService V :=
  CacheService.empty V

/-- `CacheService.cleanup_expired(ttl)`: delete from both dicts every key whose
timestamp satisfies `now - timestamp ≥ ttl` (the expired-key list is computed
from `_timestamps`). -/
def CacheService.cleanup_expired {V : Type} (s : CacheService V) (ttl now : ℚ) :
    CacheService V :=
  let expired : String → Bool := fun k =>
    match s.timestamps k with
    | some t => decide (ttl ≤ now - t)
    | none => false
  { cache := fun k => if expired k then none else s.cache k
    timestamps := fun k => if expired k then none else s.timestamps k }

/-- The implicit two-dict invariant: a key has a value iff it has a timestamp. -/
def CacheService.KeysAgree {V : Type} (s : CacheService V) : Prop :=
  ∀ k, (s.cache k).isSome = (s.timestamps k).isSome

/-! ### News weight (`mcp_server/tools/analytics.py`, `calculate_news_weight`) -/

/-- `calculate_news_weight(news_data, rank_threshold)` with
`ranks = news_data["ranks"]` and `count = news_data.get("count", len(ranks))`
passed explicitly.  Returns `0.6*rankScore + 0.3*frequencyScore +
0.1*hotnessScore` as in the source. -/
def calculate_news_weight (ranks : List ℕ) (count : ℕ) (rank_threshold : ℕ) : ℚ :=
  if ranks = [] then 0
  else
    let rank_weight : ℚ :=
      (ranks.map (fun r => (11 : ℚ) - (min r 10 : ℕ))).sum / (ranks.length : ℚ)
    let frequency_weight : ℚ := ((min count 10 : ℕ) : ℚ) * 10
    let high_rank_count : ℕ := (ranks.filter (fun r => decide (r ≤ rank_threshold))).length
    let hotness_weight : ℚ := ((high_rank_count : ℚ) / (ranks.length : ℚ)) * 100
    (6 : ℚ)/10 * rank_weight + (3 : ℚ)/10 * frequency_weight + (1 : ℚ)/10 * hotness_weight

/-! ### Topic lifecycle classification
(`mcp_server/tools/analytics.py`, `analyze_topic_lifecycle`)

The per-day mention counts (`counts` in the source) are passed as a list; the
classification code below is a direct transcription of lines 1556-1586. -/

/-- `active_days = sum(1 for c in counts if c > 0)`. -/
def active_days (counts : List ℕ) : ℕ := counts.countP (fun c => decide (0 < c))

/-- `max_count = max(counts)` (the source only evaluates this when `counts` is
non-empty; `foldr max 0` agrees there). -/
def max_count (counts : List ℕ) : ℕ := counts.foldr max 0

/-- `avg_count = sum(non_zero_counts) / len(non_zero_counts)` where
`non_zero_counts = [c for c in counts if c > 0]`, and `0` if there are none. -/
def avg_count (counts : List ℕ) : ℚ :=
  let nz := counts.filter (fun c => decide (0 < c))
  if nz = [] then 0 else (nz.sum : ℚ) / (nz.length : ℚ)

/-- The topic-type classification: "昙花一现" (flash) if
`active_days <= 2 and max_count > avg_count * 2`, else "持续hot topic"
(sustained) if `active_days >= total_days * 0.6`, else "周期性hot topic"
(periodic). -/
def topic_type (counts : List ℕ) (total_days : ℕ) : String :=
  if active_days counts ≤ 2 ∧ avg_count counts * 2 < (max_count counts : ℚ) then
    "昙花一现"
  else if (total_days : ℚ) * ((6 : ℚ)/10) ≤ (active_days counts : ℚ) then
    "持续hot topic"
  else
    "周期性hot topic"

/-! ### Weekday resolution (`mcp_server/utils/date_parser.py`)

`DateParser._get_date_by_weekday(target_weekday, is_last_week)` computes the
number of days to subtract from today; `parse_date_query` calls it with
`is_last_week = (qualifier == "last")` (resp. `"上"`).  `current_weekday` is
`today.weekday()` (0 = Monday .. 6 = Sunday). -/

/-- Days to walk back from today, as in `_get_date_by_weekday`. -/
def get_date_by_weekday (current_weekday target_weekday : ℤ) (is_last_week : Bool) : ℤ :=
  if is_last_week then current_weekday - target_weekday + 7
  else if current_weekday - target_weekday < 0 then
    current_weekday - target_weekday + 7
  else current_weekday - target_weekday

/-- Modelled from the spec's words, for comparison with the code: the offset to
the most recent occurrence of the target weekday, walking back from today
(today itself counts). -/
def spec_most_recent_weekday_offset (current_weekday target_weekday : ℤ) : ℤ :=
  (current_weekday - target_weekday) % 7

/-- Modelled from the claim's words: "last w" is the most recent occurrence and
then 7 further days back; "this w" is the most recent occurrence itself. -/
def spec_weekday_offset (current_weekday target_weekday : ℤ) (is_last_week : Bool) : ℤ :=
  spec_most_recent_weekday_offset current_weekday target_weekday +
    (if is_last_week then 7 else 0)

/-! ### Snapshot-file parsing (`mcp_server/services/parser_service.py`)

A snapshot file is modelled after the `content.split("\n\n")` /
`section.strip().split("\n")` step: a list of sections, each a list of
(already newline-free) lines.  Character-level parsing of each line is
transcribed from `parse_txt_file`. -/

/-- Python whitespace for `\s` / `str.strip()` (ASCII part). -/
def pyIsSpace (c : Char) : Bool :=
  c = ' ' || c = '\t' || c = '\n' || c = '\x0d' || c.toNat = 11 || c.toNat = 12

/-- `listStartsWith pat l` : does `l` start with `pat`? -/
def listStartsWith : List Char → List Char → Bool
  | [], _ => true
  | _ :: _, [] => false
  | a :: as, b :: bs => a = b && listStartsWith as bs

/-- Python `pat in l` (substring containment). -/
def containsSub (pat : List Char) : List Char → Bool
  | [] => pat.isEmpty
  | c :: t => listStartsWith pat (c :: t) || containsSub pat t

/-- All indices at which `pat` occurs in `l`, ascending. -/
def subIdxs (pat l : List Char) : List ℕ :=
  (List.range (l.length + 1)).filter (fun i => listStartsWith pat (l.drop i))

/-- Index of the first occurrence of `pat` in `l` (Python `str.find` /
`str.split(pat, 1)`). -/
def firstSubIdx (pat l : List Char) : Option ℕ := (subIdxs pat l).head?

/-- Index of the last occurrence of `pat` in `l` (Python `str.rsplit(pat, 1)`). -/
def lastSubIdx (pat l : List Char) : Option ℕ := (subIdxs pat l).getLast?

/-- `str.strip()`. -/
def stripWs (l : List Char) : List Char :=
  ((l.dropWhile pyIsSpace).reverse.dropWhile pyIsSpace).reverse

/-- Collapse runs of two or more spaces into one (the runs result from mapping
every whitespace char to `' '` first). -/
def squeezeSpaces : List Char → List Char
  | [] => []
  | [c] => [c]
  | a :: b :: t =>
    if a = ' ' && b = ' ' then squeezeSpaces (b :: t)
    else a :: squeezeSpaces (b :: t)

/-- `ParserService.clean_title`: `re.sub(r'\s+', ' ', title).strip()`. -/
def clean_title (l : List Char) : List Char :=
  stripWs (squeezeSpaces (l.map (fun c => if pyIsSpace c then ' ' else c)))

/-- `str.isdigit()` for the ASCII digits relevant to rank prefixes. -/
def allDigits (l : List Char) : Bool := !l.isEmpty && l.all Char.isDigit

/-- Python `int(...)` on a digit string. -/
def digitsToNat (cs : List Char) : ℕ :=
  cs.foldl (fun acc c => acc * 10 + (c.toNat - 48)) 0

/-- A parsed title record (`{"ranks": ..., "url": ..., "mobileUrl": ...}`). -/
structure TitleInfo where
  ranks : List ℕ
  url : String
  mobileUrl : String
deriving DecidableEq

/-- Strip a trailing `" [TAG:...]"` part at its last occurrence, as the source
does with `rsplit(" [TAG:", 1)`: the part before the tag becomes the new title
text in every case, and the tag payload is kept only if it ends in `]`. -/
def stripTag (tag l : List Char) : List Char × List Char :=
  if containsSub tag l then
    match lastSubIdx tag l with
    | some j =>
      let before := l.take j
      let payload := l.drop (j + tag.length)
      if payload.getLast? = some ']' then (before, payload.dropLast)
      else (before, [])
    | none => (l, [])
  else (l, [])

/-- Parse one title line (`parse_txt_file`, lines 103-139): extract the
leading `<digits>. ` rank if present (default rank 1), strip the `[MOBILE:...]`
tag, then the `[URL:...]` tag, and clean the remaining title.  Blank lines
yield `none`. -/
def parseTitleLine (line : List Char) : Option (String × TitleInfo) :=
  if (stripWs line).isEmpty then none
  else
    let tp0 := stripWs line
    let dotSpace : List Char := ['.', ' ']
    let takeRank : Option ℕ × List Char :=
      match firstSubIdx dotSpace tp0 with
      | some i =>
        if allDigits (tp0.take i) then (some (digitsToNat (tp0.take i)), tp0.drop (i + 2))
        else (none, tp0)
      | none => (none, tp0)
    let (tp1m, mobile_url) := stripTag " [MOBILE:".toList takeRank.2
    let (tp2, url) := stripTag " [URL:".toList tp1m
    let title := clean_title (stripWs tp2)
    let ranks := match takeRank.1 with
      | some r => [r]
      | none => [1]
    some (String.mk title, ⟨ranks, String.mk url, String.mk mobile_url⟩)

/-- Fold the title lines of one section into the per-section title dict
(`titles_by_id[source_id][title] = {...}`: a repeated title in the same section
is overwritten). -/
def parseSectionBody (lines : List String) : List (String × TitleInfo) :=
  lines.foldl (fun acc line =>
    match parseTitleLine line.toList with
    | some (title, info) => dictInsert acc title info
    | none => acc) []

/-- Split a section header on `" | "` into `(source_id, display_name)`;
without the separator the id is its own display name. -/
def parseHeader (h : List Char) : String × String :=
  match firstSubIdx " | ".toList h with
  | some i => (String.mk (stripWs (h.take i)), String.mk (stripWs (h.drop (i + 3))))
  | none => (String.mk h, String.mk h)

/-- Is this section skipped?  Blank sections and the
"==== 以下ID请求failed ====" sentinel section are skipped, as are sections with
fewer than two lines. -/
def sectionSkipped (lines : List String) : Bool :=
  (lines.all fun line => (stripWs line.toList).isEmpty)
    || (lines.any fun line => containsSub "==== 以下ID请求failed ====".toList line.toList)
    || lines.length < 2

/-- `ParserService.parse_txt_file` on pre-split section contents: returns
`(titles_by_id, id_to_name)`.  A repeated `source_id` section replaces the
earlier one's dict (`titles_by_id[source_id] = {}` rebuilds it). -/
def parse_txt_file (sections : List (List String)) :
    List (String × List (String × TitleInfo)) × List (String × String) :=
  sections.foldl (fun acc lines =>
    if sectionSkipped lines then acc
    else
      match lines with
      | [] => acc
      | header :: body =>
        let (source_id, name) := parseHeader (stripWs header.toList)
        (dictInsert acc.1 source_id (parseSectionBody body),
         dictInsert acc.2 source_id name)) ([], [])

/-- Merge one parsed section dict into the accumulated per-platform title dict:
`ranks.extend(...)` on an existing title, `info.copy()` insertion otherwise. -/
def mergeTitles (acc add : List (String × TitleInfo)) : List (String × TitleInfo) :=
  add.foldl (fun m tkv =>
    match dictLookup m tkv.1 with
    | some info => dictInsert m tkv.1 ⟨info.ranks ++ tkv.2.ranks, info.url, info.mobileUrl⟩
    | none => dictInsert m tkv.1 tkv.2) acc

/-- Does the per-call platform filter keep this platform?  Mirrors
`if platform_ids and platform_id not in platform_ids: continue`
(an empty filter list is falsy in Python, i.e. keeps everything). -/
def platformKept (platform_ids : Option (List String)) (p : String) : Bool :=
  match platform_ids with
  | none => true
  | some ps => ps.isEmpty || ps.contains p

/-- Merge one parsed file into the accumulated `(all_titles, id_to_name)`
state, as the per-file loop body of `read_all_titles_for_date` does:
`id_to_name.update(...)` (later names replace earlier ones) and rank-list
concatenation per `(platform, title)`. -/
def mergeFileStep (platform_ids : Option (List String))
    (acc : List (String × List (String × TitleInfo)) × List (String × String))
    (file : List (List String)) :
    List (String × List (String × TitleInfo)) × List (String × String) :=
  let parsed := parse_txt_file file
  let idn := parsed.2.foldl (fun m kv => dictInsert m kv.1 kv.2) acc.2
  let titles := parsed.1.foldl (fun m pkv =>
    if platformKept platform_ids pkv.1 then
      dictInsert m pkv.1 (mergeTitles ((dictLookup m pkv.1).getD []) pkv.2)
    else m) acc.1
  (titles, idn)

/-- `read_all_titles_for_date`'s merge over the date's files (already sorted
by ascending file name): returns `(all_titles, id_to_name)`. -/
def read_all_titles_merge (files : List (List (List String)))
    (platform_ids : Option (List String)) :
    List (String × List (String × TitleInfo)) × List (String × String) :=
  files.foldl (mergeFileStep platform_ids) ([], [])

/-- The rank list recorded for `(platform, title)` in a two-level title dict
(`[]` when absent). -/
def lookupRanks (titles : List (String × List (String × TitleInfo)))
    (p t : String) : List ℕ :=
  match dictLookup titles p with
  | none => []
  | some d =>
    match dictLookup d t with
    | none => []
    | some info => info.ranks

/-- The rank list contributed by a single file for `(platform, title)`. -/
def fileRanks (file : List (List String)) (p t : String) : List ℕ :=
  lookupRanks (parse_txt_file file).1 p t

/-! ### Sequence similarity (`difflib.SequenceMatcher.ratio`)

`SearchTools._calculate_similarity` lowercases both strings and calls
`SequenceMatcher(None, a, b).ratio()`.  We transcribe CPython's algorithm:
`ratio = 2*M/T` where `M` is the total size of the matching blocks found by
recursively taking the longest matching block (ties broken by smallest `i`,
then smallest `j`).  The junk heuristics are omitted: there is no junk
argument here, and the autojunk popularity heuristic only applies to strings
of length ≥ 200 (the extension loops around a maximal block never fire when
no element is junk). -/

/-- Positions of `c` in `b`, ascending (difflib's `b2j`). -/
def charPositions (c : Char) (b : List Char) : List ℕ :=
  (List.range b.length).filter (fun j => decide (b.get? j = some c))

/-- `find_longest_match` over whole lists: returns `(i, j, size)` of the
longest block such that `a[i:i+size] == b[j:j+size]`, preferring the first
strictly-longer block found scanning `i` ascending and, within a row, `j`
ascending. -/
def flm (a b : List Char) : ℕ × ℕ × ℕ :=
  let step := fun (st : (ℕ → ℕ) × (ℕ × ℕ × ℕ)) (i : ℕ) =>
    let j2len := st.1
    let row := (charPositions (a.getD i (Char.ofNat 0)) b).foldl
      (fun (rs : (ℕ → ℕ) × (ℕ × ℕ × ℕ)) (j : ℕ) =>
        let k := (if j = 0 then 0 else j2len (j - 1)) + 1
        let newmap : ℕ → ℕ := fun j2 => if j2 = j then k else rs.1 j2
        if rs.2.2.2 < k then (newmap, (i + 1 - k, j + 1 - k, k)) else (newmap, rs.2))
      ((fun _ => 0), st.2)
    (row.1, row.2)
  ((List.range a.length).foldl step ((fun _ => 0), (0, 0, 0))).2

/-- Total size of all matching blocks (`get_matching_blocks` recursion);
the fuel bounds the recursion depth and `a.length + b.length` always
suffices. -/
def matchSumAux : ℕ → List Char → List Char → ℕ
  | 0, _, _ => 0
  | fuel + 1, a, b =>
    let ijk := flm a b
    let i := ijk.1
    let j := ijk.2.1
    let k := ijk.2.2
    if k = 0 then 0
    else k + matchSumAux fuel (a.take i) (b.take j)
           + matchSumAux fuel (a.drop (i + k)) (b.drop (j + k))

/-- `SequenceMatcher.ratio()`: `2*M/T`, and `1.0` when both are empty. -/
def seq_ratio (a b : List Char) : ℚ :=
  if a.length + b.length = 0 then 1
  else 2 * (matchSumAux (a.length + b.length) a b : ℚ) / ((a.length + b.length : ℕ) : ℚ)

/-- `str.lower()` applied to a string's characters (ASCII case folding; CJK
characters are unchanged, as in Python). -/
def lowerList (s : String) : List Char := s.toList.map Char.toLower

/-- `SearchTools._calculate_similarity`. -/
def calculate_similarity (text1 text2 : String) : ℚ :=
  seq_ratio (lowerList text1) (lowerList text2)

/-! ### Keyword extraction (`SearchTools._extract_keywords`) -/

/-- Length of the matched `http[s]?://` prefix at the head of `l`, if any. -/
def urlPrefixLen (l : List Char) : Option ℕ :=
  if listStartsWith "https://".toList l then some 8
  else if listStartsWith "http://".toList l then some 7
  else none

/-- `re.sub(r'http[s]?://\S+', '', text)`: remove each URL prefix together
with its greedy run of non-space characters (the regex needs at least one). -/
def stripUrlsAux : ℕ → List Char → List Char
  | 0, _ => []
  | _ + 1, [] => []
  | fuel + 1, c :: t =>
    match urlPrefixLen (c :: t) with
    | some n =>
      match (c :: t).drop n with
      | [] => c :: stripUrlsAux fuel t
      | r :: rest =>
        if pyIsSpace r then c :: stripUrlsAux fuel t
        else stripUrlsAux fuel ((r :: rest).dropWhile (fun ch => !pyIsSpace ch))
    | none => c :: stripUrlsAux fuel t

def stripUrls (l : List Char) : List Char := stripUrlsAux l.length l

/-- `re.sub(r'\[.*?\]', '', text)`: remove each bracketed span up to the first
`]` (the non-greedy `.` cannot cross a newline). -/
def stripBracketsAux : ℕ → List Char → List Char
  | 0, _ => []
  | _ + 1, [] => []
  | fuel + 1, c :: t =>
    if c = '[' then
      match (t.takeWhile (fun ch => ch != '\n')).findIdx? (fun ch => ch == ']') with
      | some i => stripBracketsAux fuel (t.drop (i + 1))
      | none => c :: stripBracketsAux fuel t
    else c :: stripBracketsAux fuel t

def stripBrackets (l : List Char) : List Char := stripBracketsAux l.length l

/-- Python `\w` restricted to the character classes occurring in this corpus:
ASCII alphanumerics, underscore, and the CJK unified ideograph block. -/
def isWordChar (c : Char) : Bool :=
  c.isAlphanum || c == '_' || (decide (0x4E00 ≤ c.toNat) && decide (c.toNat ≤ 0x9FFF))

/-- `re.findall(r'[\w]+', text)`: maximal runs of word characters. -/
def wordRuns : List Char → List (List Char)
  | [] => []
  | c :: t =>
    if isWordChar c then
      match t with
      | [] => [[c]]
      | d :: _ =>
        if isWordChar d then
          match wordRuns t with
          | r :: rs => (c :: r) :: rs
          | [] => [[c]]
        else [c] :: wordRuns t
    else wordRuns t

/-- The stopword set from `SearchTools.__init__`. -/
def stopwords : List String :=
  ["的", "了", "在", "是", "我", "有", "和", "就", "不", "人", "都", "一",
   "一个", "上", "也", "很", "到", "说", "要", "去", "你", "会", "着", "没有",
   "看", "好", "自己", "这", "那", "来", "被", "与", "为", "对", "将", "从",
   "以", "及", "等", "但", "或", "而", "于", "中", "由", "可", "can", "已",
   "已经", "还", "更", "最", "再", "因为", "所以", "如果", "虽然", "然而"]

/-- `SearchTools._extract_keywords(text, min_length)`. -/
def extract_keywords (text : String) (min_length : ℕ) : List String :=
  let l1 := stripUrls text.toList
  let l2 := stripBrackets l1
  ((wordRuns l2).map fun w => String.mk w).filter
    (fun w => decide (min_length ≤ w.length) && !(stopwords.contains w))

/-! ### Keyword overlap and fuzzy matching (`search_tools.py`) -/

/-- `SearchTools._calculate_keyword_overlap`: the symmetric Jaccard ratio
`|set1 ∩ set2| / |set1 ∪ set2|` (0 when either list is empty). -/
def calculate_keyword_overlap (keywords1 keywords2 : List String) : ℚ :=
  if keywords1 = [] ∨ keywords2 = [] then 0
  else
    let s1 := keywords1.dedup
    let s2 := keywords2.dedup
    let inter := (s1.filter (fun w => s2.contains w)).length
    let union := (s1 ++ s2.filter (fun w => !(s1.contains w))).length
    if union = 0 then 0 else (inter : ℚ) / (union : ℚ)

/-- Modelled from the claim's words, for comparison with the code: the number
of shared tokens divided by the number of tokens of the *reference* text. -/
def spec_keyword_overlap (referenceKeywords titleKeywords : List String) : ℚ :=
  if referenceKeywords = [] then 0
  else ((referenceKeywords.dedup.filter (fun w => titleKeywords.contains w)).length : ℚ)
      / (referenceKeywords.dedup.length : ℚ)

/-- `SearchTools._fuzzy_match(query, text, threshold)`: case-insensitive
substring containment short-circuits to score 1.0; else accept when the
sequence ratio reaches the threshold; else fall back to keyword-set overlap
`|common| / |query tokens| ≥ 0.5`. -/
def fuzzy_match (query text : String) (threshold : ℚ) : Bool × ℚ :=
  if containsSub (lowerList query) (lowerList text) then (true, 1)
  else
    let similarity := calculate_similarity query text
    if threshold ≤ similarity then (true, similarity)
    else
      let query_words := (extract_keywords query 2).dedup
      let text_words := (extract_keywords text 2).dedup
      if query_words.isEmpty || text_words.isEmpty then (false, 0)
      else
        let common_words := query_words.filter (fun w => text_words.contains w)
        let keyword_overlap : ℚ := (common_words.length : ℚ) / (query_words.length : ℚ)
        if (1 : ℚ)/2 ≤ keyword_overlap then (true, keyword_overlap)
        else (false, similarity)

/-! ### Unified search (`SearchTools.search_news_unified`)

The corpus is passed explicitly as a day-number-indexed association list of
`(all_titles, id_to_name)` pairs; a missing day is the per-day
`DataNotFoundError` that the range loop swallows.  The item dicts are modelled
as a structure (the optional URL fields and the 4-decimal rounding of
displayed scores are presentation details and are elided); the descriptive
empty-result message text is abbreviated. -/

structure NewsItem where
  title : String
  platform : String
  platform_name : String
  day : ℕ
  similarity_score : ℚ
  ranks : List ℕ
  count : ℕ
  rank : ℕ
deriving DecidableEq

/-- One news item as built in `_search_by_*_mode`. -/
def mkNewsItem (title platform pname : String) (day : ℕ) (score : ℚ)
    (info : TitleInfo) : NewsItem :=
  { title := title, platform := platform, platform_name := pname, day := day,
    similarity_score := score, ranks := info.ranks, count := info.ranks.length,
    rank := info.ranks.headD 999 }

inductive SearchMode where
  | keyword
  | fuzzy
  | entity
deriving DecidableEq

inductive SortBy where
  | relevance
  | weight
  | date
deriving DecidableEq

/-- The per-title acceptance test of each mode, with the accepted score. -/
def titleMatch (mode : SearchMode) (query title : String) (threshold : ℚ) :
    Option ℚ :=
  match mode with
  | .keyword =>
    if containsSub (lowerList query) (lowerList title) then some 1 else none
  | .fuzzy =>
    let r := fuzzy_match query title threshold
    if r.1 then some r.2 else none
  | .entity =>
    if containsSub query.toList title.toList then some 1 else none

/-- One day's matches, iterating platforms then titles in insertion order. -/
def search_day (mode : SearchMode) (query : String) (threshold : ℚ)
    (titles : List (String × List (String × TitleInfo)))
    (idn : List (String × String)) (day : ℕ) : List NewsItem :=
  (titles.map (fun pkv =>
    pkv.2.filterMap (fun tkv =>
      (titleMatch mode query tkv.1 threshold).map (fun score =>
        mkNewsItem tkv.1 pkv.1 ((dictLookup idn pkv.1).getD pkv.1) day score tkv.2)))).join

/-- A corpus: day number ↦ that day's `(all_titles, id_to_name)`. -/
def corpusLookup
    (corpus : List (ℕ × (List (String × List (String × TitleInfo)) × List (String × String))))
    (d : ℕ) : Option (List (String × List (String × TitleInfo)) × List (String × String)) :=
  dictLookup corpus d

/-- Inclusive day range `start..end` (empty when `end < start`), matching
`while current_date <= end_date`. -/
def dayRange (s e : ℕ) : List ℕ := (List.range (e + 1 - s)).map (fun i => s + i)

/-- The range loop of `search_news_unified`: per-day `DataNotFoundError` is
swallowed as zero contribution. -/
def collect_matches
    (corpus : List (ℕ × (List (String × List (String × TitleInfo)) × List (String × String))))
    (mode : SearchMode) (query : String) (threshold : ℚ) (s e : ℕ) : List NewsItem :=
  ((dayRange s e).map (fun d =>
    match corpusLookup corpus d with
    | some dd => search_day mode query threshold dd.1 dd.2 d
    | none => [])).join

/-- `list.sort(key=..., reverse=True)` (stable). -/
def sortMatches (sortBy : SortBy) (ms : List NewsItem) : List NewsItem :=
  match sortBy with
  | .relevance => ms.insertionSort (fun x y => y.similarity_score ≤ x.similarity_score)
  | .weight => ms.insertionSort (fun x y =>
      calculate_news_weight y.ranks y.count 5 ≤ calculate_news_weight x.ranks x.count 5)
  | .date => ms.insertionSort (fun x y => y.day ≤ x.day)

/-- `DataService.get_available_date_range`'s "latest" component: the greatest
day with a corpus folder, `none` when there is none. -/
def latestDay
    (corpus : List (ℕ × (List (String × List (String × TitleInfo)) × List (String × String)))) :
    Option ℕ :=
  corpus.foldl (fun acc kv =>
    match acc with
    | none => some kv.1
    | some m => some (max m kv.1)) none

/-- The result shape of `search_news_unified`: `success`, the (truncated)
result list, the pre-truncation total, the descriptive message of the
zero-match success path, and the error code of the failure path. -/
structure SearchResult where
  success : Bool
  results : List NewsItem
  total : ℕ
  message : Option String
  errorCode : Option String
deriving DecidableEq

/-- The post-date-resolution body of `search_news_unified` over an explicit
inclusive day range. -/
def search_range
    (corpus : List (ℕ × (List (String × List (String × TitleInfo)) × List (String × String))))
    (query : String) (mode : SearchMode) (s e limit : ℕ) (sortBy : SortBy)
    (th : ℚ) : SearchResult :=
  let ms := collect_matches corpus mode query th s e
  if ms = [] then
    { success := true, results := [], total := 0,
      message := some "未找到匹配的news", errorCode := none }
  else
    { success := true, results := (sortMatches sortBy ms).take limit,
      total := ms.length, message := none, errorCode := none }

/-- `SearchTools.search_news_unified` (validated inputs): clamps the threshold
into `[0, 1]`; with no date range it falls back to the latest available day
and fails with `NO_DATA_AVAILABLE` when no corpus data exists at all. -/
def search_news_unified
    (corpus : List (ℕ × (List (String × List (String × TitleInfo)) × List (String × String))))
    (query : String) (mode : SearchMode) (dateRange : Option (ℕ × ℕ))
    (limit : ℕ) (sortBy : SortBy) (threshold : ℚ) : SearchResult :=
  let th := max 0 (min 1 threshold)
  match dateRange with
  | none =>
    match latestDay corpus with
    | none =>
      { success := false, results := [], total := 0, message := none,
        errorCode := some "NO_DATA_AVAILABLE" }
    | some d => search_range corpus query mode d d limit sortBy th
  | some se => search_range corpus query mode se.1 se.2 limit sortBy th

/-! ### History-relevance search (`SearchTools.search_related_news_history`)

Only the candidate-collection core is embedded (time-preset resolution,
sorting, truncation and the statistics block do not affect the scoring
claim). -/

structure RelatedItem where
  title : String
  platform : String
  day : ℕ
  similarity_score : ℚ
  keyword_overlap : ℚ
  text_similarity : ℚ
deriving DecidableEq

/-- One day's related-news candidates: combined score
`keyword_overlap * 0.7 + title_similarity * 0.3`, accepted when it reaches
the threshold. -/
def related_day (reference_text : String) (reference_keywords : List String)
    (threshold : ℚ) (titles : List (String × List (String × TitleInfo)))
    (day : ℕ) : List RelatedItem :=
  (titles.map (fun pkv =>
    pkv.2.filterMap (fun tkv =>
      let title_similarity := calculate_similarity reference_text tkv.1
      let title_keywords := extract_keywords tkv.1 2
      let keyword_overlap := calculate_keyword_overlap reference_keywords title_keywords
      let combined := keyword_overlap * ((7 : ℚ)/10) + title_similarity * ((3 : ℚ)/10)
      if threshold ≤ combined then
        some ⟨tkv.1, pkv.1, day, combined, keyword_overlap, title_similarity⟩
      else none))).join

/-- The day-range scan of `search_related_news_history`. -/
def search_related_news_history
    (corpus : List (ℕ × (List (String × List (String × TitleInfo)) × List (String × String))))
    (reference_text : String) (threshold : ℚ) (s e : ℕ) : List RelatedItem :=
  let reference_keywords := extract_keywords reference_text 2
  ((dayRange s e).map (fun d =>
    match corpusLookup corpus d with
    | some dd => related_day reference_text reference_keywords threshold dd.1 d
    | none => [])).join

/-! ### Auxiliary definitions used by the proofs -/

/-- The structural invariant of a parsed file: platform keys are unique, each
per-platform dict has unique title keys, and the id-name dict has unique keys. -/
def ParsedInv (p : List (String × List (String × TitleInfo)) × List (String × String)) :
    Prop :=
  DictNodup p.1 ∧ (∀ kv ∈ p.1, DictNodup kv.2) ∧ DictNodup p.2

/-- The rank list stored for a title in a one-level title dict. -/
def dictRanks (d : List (String × TitleInfo)) (t : String) : List ℕ :=
  match dictLookup d t with
  | none => []
  | some info => info.ranks

/-- One platform-level merge step inside `mergeFileStep`. -/
def platStep (platform_ids : Option (List String))
    (m : List (String × List (String × TitleInfo)))
    (pkv : String × List (String × TitleInfo)) :
    List (String × List (String × TitleInfo)) :=
  if platformKept platform_ids pkv.1 then
    dictInsert m pkv.1 (mergeTitles ((dictLookup m pkv.1).getD []) pkv.2)
  else m

/-- The concrete one-day corpus used by the C4 counterexample. -/
def fuzzy_counter_corpus :
    List (ℕ × (List (String × List (String × TitleInfo)) × List (String × String))) :=
  [(0, ([("p", [("foo world and hello", ⟨[1], "", ""⟩)])], [("p", "P")]))]

/-- The concrete one-day corpus used by the C5 counterexample. -/
def related_counter_corpus :
    List (ℕ × (List (String × List (String × TitleInfo)) × List (String × String))) :=
  [(0, ([("p", [("alpha gamma", ⟨[1], "", ""⟩)])], [("p", "P")]))]

/-- The concrete one-day corpus used by the C5 witness. -/
def related_witness_corpus :
    List (ℕ × (List (String × List (String × TitleInfo)) × List (String × String))) :=
  [(0, ([("p", [("alpha beta", ⟨[1], "", ""⟩)])], [("p", "P")]))]

/-- The concrete one-day corpus used by the C9 witness. -/
def search_witness_corpus :
    List (ℕ × (List (String × List (String × TitleInfo)) × List (String × String))) :=
  [(0, ([("p", [("t", ⟨[1], "", ""⟩)])], [("p", "P")]))]

attribute [local semireducible] Rat.mul Rat.add Rat.inv

set_option maxRecDepth 100000

/-! ### Dictionary lemmas -/

lemma dictLookup_dictInsert_self {α β : Type} [DecidableEq α]
    (d : List (α × β)) (k : α) (v : β) :
    dictLookup (dictInsert d k v) k = some v := by
  induction d with
  | nil => simp [dictInsert, dictLookup]
  | cons kv t ih =>
    obtain ⟨k0, v0⟩ := kv
    by_cases hk : k0 = k
    · simp [dictInsert, hk, dictLookup]
    · simp [dictInsert, hk, dictLookup, ih]

lemma dictLookup_dictInsert_ne {α β : Type} [DecidableEq α]
    (d : List (α × β)) (k : α) (v : β) (k' : α) (h : k ≠ k') :
    dictLookup (dictInsert d k v) k' = dictLookup d k' := by
  induction d with
  | nil => simp [dictInsert, dictLookup, h]
  | cons kv t ih =>
    obtain ⟨k0, v0⟩ := kv
    by_cases hk : k0 = k
    · subst hk; simp [dictInsert, dictLookup, h]
    · simp [dictInsert, hk, dictLookup, ih]

lemma dictLookup_eq_none_of_not_mem {α β : Type} [DecidableEq α]
    (d : List (α × β)) (k : α) (h : k ∉ dictKeys d) :
    dictLookup d k = none := by
  induction d with
  | nil => rfl
  | cons kv t ih =>
    obtain ⟨k0, v0⟩ := kv
    simp only [dictKeys, List.map_cons, List.mem_cons] at h
    push_neg at h
    simp only [dictLookup]
    rw [if_neg (by exact fun he => h.1 he.symm)]
    exact ih (by simpa [dictKeys] using h.2)

lemma mem_dictKeys_dictInsert {α β : Type} [DecidableEq α]
    (d : List (α × β)) (k : α) (v : β) (k' : α) :
    k' ∈ dictKeys (dictInsert d k v) ↔ k' ∈ dictKeys d ∨ k' = k := by
  induction d with
  | nil => simp [dictInsert, dictKeys]
  | cons kv t ih =>
    obtain ⟨k0, v0⟩ := kv
    by_cases hk : k0 = k
    · subst hk
      simp [dictInsert, dictKeys]
      tauto
    · simp only [dictInsert, if_neg hk, dictKeys, List.map_cons, List.mem_cons]
      rw [show (dictInsert t k v).map Prod.fst = dictKeys (dictInsert t k v) from rfl]
      rw [ih]
      simp [dictKeys]
      tauto

lemma dictNodup_dictInsert {α β : Type} [DecidableEq α]
    (d : List (α × β)) (k : α) (v : β) (h : DictNodup d) :
    DictNodup (dictInsert d k v) := by
  induction d with
  | nil => simp [dictInsert, DictNodup, dictKeys]
  | cons kv t ih =>
    obtain ⟨k0, v0⟩ := kv
    simp only [DictNodup, dictKeys, List.map_cons, List.nodup_cons] at h
    by_cases hk : k0 = k
    · subst hk
      simpa [dictInsert, DictNodup, dictKeys] using h
    · have ht := ih h.2
      simp only [dictInsert, if_neg hk, DictNodup, dictKeys, List.map_cons,
        List.nodup_cons]
      refine ⟨?_, ht⟩
      intro hmem
      rw [show (dictInsert t k v).map Prod.fst = dictKeys (dictInsert t k v) from rfl,
        mem_dictKeys_dictInsert] at hmem
      rcases hmem with hmem | hmem
      · exact h.1 (by simpa [dictKeys] using hmem)
      · exact hk hmem

lemma mem_of_mem_dictInsert {α β : Type} [DecidableEq α]
    {d : List (α × β)} {k : α} {v : β} {kv : α × β}
    (h : kv ∈ dictInsert d k v) : kv = (k, v) ∨ kv ∈ d := by
  induction d with
  | nil => simpa [dictInsert] using h
  | cons kv0 t ih =>
    obtain ⟨k0, v0⟩ := kv0
    by_cases hk : k0 = k
    · have h' : kv ∈ (k, v) :: t := by simpa [dictInsert, hk] using h
      rcases List.mem_cons.mp h' with h' | h'
      · exact Or.inl h'
      · exact Or.inr (List.mem_cons_of_mem _ h')
    · simp only [dictInsert, if_neg hk, List.mem_cons] at h
      rcases h with h | h
      · exact Or.inr (by simp [h])
      · rcases ih h with h | h
        · exact Or.inl h
        · exact Or.inr (List.mem_cons_of_mem _ h)

/-! ### Parser structural invariants -/

lemma parseSectionBody_aux_nodup (lines : List String) :
    ∀ acc : List (String × TitleInfo), DictNodup acc →
      DictNodup (lines.foldl (fun acc line =>
        match parseTitleLine line.toList with
        | some (title, info) => dictInsert acc title info
        | none => acc) acc) := by
  induction lines with
  | nil => intro acc h; exact h
  | cons l t ih =>
    intro acc h
    simp only [List.foldl_cons]
    cases hp : parseTitleLine l.toList with
    | none => exact ih acc (by simpa [hp] using h)
    | some ti =>
      obtain ⟨title, info⟩ := ti
      have := dictNodup_dictInsert acc title info h
      simpa [hp] using ih _ this

lemma parseSectionBody_nodup (lines : List String) :
    DictNodup (parseSectionBody lines) :=
  parseSectionBody_aux_nodup lines [] (by simp [DictNodup, dictKeys])

lemma parse_txt_file_inv (sections : List (List String)) :
    ParsedInv (parse_txt_file sections) := by
  suffices h : ∀ acc, ParsedInv acc →
      ParsedInv (sections.foldl (fun acc lines =>
        if sectionSkipped lines then acc
        else
          match lines with
          | [] => acc
          | header :: body =>
            let hdr := parseHeader (stripWs header.toList)
            (dictInsert acc.1 hdr.1 (parseSectionBody body),
             dictInsert acc.2 hdr.1 hdr.2)) acc) by
    exact h ([], []) ⟨by simp [DictNodup, dictKeys], by simp, by simp [DictNodup, dictKeys]⟩
  induction sections with
  | nil => intro acc h; exact h
  | cons s rest ih =>
    intro acc h
    simp only [List.foldl_cons]
    by_cases hs : sectionSkipped s
    · simpa [hs] using ih acc h
    · cases s with
      | nil => simpa [hs] using ih acc h
      | cons header body =>
        obtain ⟨h1, h2, h3⟩ := h
        have hinv : ParsedInv
            (dictInsert acc.1 (parseHeader (stripWs header.toList)).1 (parseSectionBody body),
             dictInsert acc.2 (parseHeader (stripWs header.toList)).1
               (parseHeader (stripWs header.toList)).2) := by
          refine ⟨dictNodup_dictInsert _ _ _ h1, ?_, dictNodup_dictInsert _ _ _ h3⟩
          intro kv hkv
          rcases mem_of_mem_dictInsert hkv with hkv | hkv
          · rw [hkv]; exact parseSectionBody_nodup body
          · exact h2 kv hkv
        simpa [hs] using ih _ hinv

/-! ### Rank-concatenation lemmas (C1) -/

lemma lookupRanks_eq_dictRanks (titles : List (String × List (String × TitleInfo)))
    (p t : String) :
    lookupRanks titles p t = dictRanks ((dictLookup titles p).getD []) t := by
  unfold lookupRanks dictRanks
  cases dictLookup titles p with
  | none => simp [dictLookup]
  | some d => simp

lemma mergeTitles_ranks : ∀ (add : List (String × TitleInfo)), DictNodup add →
    ∀ (acc : List (String × TitleInfo)) (t : String),
      dictRanks (mergeTitles acc add) t = dictRanks acc t ++ dictRanks add t := by
  intro add
  induction add with
  | nil => intro _ acc t; simp [mergeTitles, dictRanks, dictLookup]
  | cons tv rest ih =>
    intro hnd acc t
    obtain ⟨t0, i0⟩ := tv
    simp only [DictNodup, dictKeys, List.map_cons, List.nodup_cons] at hnd
    have hrest : DictNodup rest := hnd.2
    have hstep : mergeTitles acc ((t0, i0) :: rest)
        = mergeTitles (match dictLookup acc t0 with
            | some info => dictInsert acc t0 ⟨info.ranks ++ i0.ranks, info.url, info.mobileUrl⟩
            | none => dictInsert acc t0 i0) rest := rfl
    rw [hstep, ih hrest]
    by_cases ht : t = t0
    · subst ht
      have hrest0 : dictRanks rest t = [] := by
        unfold dictRanks
        rw [dictLookup_eq_none_of_not_mem rest t (by simpa [dictKeys] using hnd.1)]
      rw [hrest0, List.append_nil]
      have hhead : dictRanks ((t, i0) :: rest) t = i0.ranks := by
        simp [dictRanks, dictLookup]
      rw [hhead]
      cases hl : dictLookup acc t with
      | none => simp [dictRanks, hl, dictLookup_dictInsert_self]
      | some info => simp [dictRanks, hl, dictLookup_dictInsert_self]
    · have hne : t0 ≠ t := fun h => ht h.symm
      have hcons : dictRanks ((t0, i0) :: rest) t = dictRanks rest t := by
        simp [dictRanks, dictLookup, hne]
      rw [hcons]
      congr 1
      cases hl : dictLookup acc t0 with
      | none => simp [dictRanks, dictLookup_dictInsert_ne _ _ _ _ hne]
      | some info => simp [dictRanks, dictLookup_dictInsert_ne _ _ _ _ hne]

lemma platStep_kept (pids : Option (List String))
    (m : List (String × List (String × TitleInfo)))
    (pkv : String × List (String × TitleInfo))
    (h : platformKept pids pkv.1 = true) :
    platStep pids m pkv
      = dictInsert m pkv.1 (mergeTitles ((dictLookup m pkv.1).getD []) pkv.2) := by
  unfold platStep
  rw [if_pos h]

lemma platStep_skip (pids : Option (List String))
    (m : List (String × List (String × TitleInfo)))
    (pkv : String × List (String × TitleInfo))
    (h : ¬ platformKept pids pkv.1 = true) :
    platStep pids m pkv = m := by
  unfold platStep
  rw [if_neg h]

lemma lookupRanks_platStep_foldl_not_mem (pids : Option (List String)) :
    ∀ (entries : List (String × List (String × TitleInfo)))
      (m : List (String × List (String × TitleInfo))) (p t : String),
      p ∉ dictKeys entries →
      lookupRanks (entries.foldl (platStep pids) m) p t = lookupRanks m p t := by
  intro entries
  induction entries with
  | nil => intro m p t _; rfl
  | cons pkv rest ih =>
    intro m p t hmem
    simp only [dictKeys, List.map_cons, List.mem_cons] at hmem
    push_neg at hmem
    simp only [List.foldl_cons]
    rw [ih _ p t (by simpa [dictKeys] using hmem.2)]
    by_cases hkept : platformKept pids pkv.1
    · rw [platStep_kept pids m pkv hkept, lookupRanks_eq_dictRanks,
        lookupRanks_eq_dictRanks,
        dictLookup_dictInsert_ne _ _ _ _ (fun h => hmem.1 h.symm)]
    · rw [platStep_skip pids m pkv hkept]

lemma lookupRanks_platStep_foldl (pids : Option (List String)) :
    ∀ (entries : List (String × List (String × TitleInfo))),
      DictNodup entries → (∀ kv ∈ entries, DictNodup kv.2) →
      ∀ (m : List (String × List (String × TitleInfo))) (p t : String),
        lookupRanks (entries.foldl (platStep pids) m) p t
          = lookupRanks m p t
            ++ (if platformKept pids p then
                  dictRanks ((dictLookup entries p).getD []) t
                else []) := by
  intro entries
  induction entries with
  | nil =>
    intro _ _ m p t
    simp [dictLookup, dictRanks]
  | cons pkv rest ih =>
    intro hnd hvals m p t
    obtain ⟨p0, d0⟩ := pkv
    simp only [DictNodup, dictKeys, List.map_cons, List.nodup_cons] at hnd
    simp only [List.foldl_cons]
    by_cases hp : p = p0
    · subst hp
      rw [lookupRanks_platStep_foldl_not_mem pids rest _ p t
        (by simpa [dictKeys] using hnd.1)]
      by_cases hkept : platformKept pids p
      · rw [platStep_kept pids m (p, d0) hkept, if_pos hkept]
        rw [lookupRanks_eq_dictRanks, dictLookup_dictInsert_self]
        have hd0 : DictNodup d0 := hvals (p, d0) (List.mem_cons_self _ _)
        rw [show ((some (mergeTitles ((dictLookup m p).getD []) d0)).getD []) =
          mergeTitles ((dictLookup m p).getD []) d0 from rfl]
        rw [mergeTitles_ranks d0 hd0]
        rw [← lookupRanks_eq_dictRanks]
        simp [dictLookup]
      · rw [platStep_skip pids m (p, d0) hkept, if_neg hkept, List.append_nil]
    · have hne : p0 ≠ p := fun h => hp h.symm
      rw [ih hnd.2 (fun kv hkv => hvals kv (List.mem_cons_of_mem _ hkv)) _ p t]
      have hstep : lookupRanks (platStep pids m (p0, d0)) p t = lookupRanks m p t := by
        by_cases hkept : platformKept pids p0
        · rw [platStep_kept pids m (p0, d0) hkept, lookupRanks_eq_dictRanks,
            lookupRanks_eq_dictRanks, dictLookup_dictInsert_ne _ _ _ _ hne]
        · rw [platStep_skip pids m (p0, d0) hkept]
      rw [hstep]
      have hlk : dictLookup ((p0, d0) :: rest) p = dictLookup rest p := by
        simp [dictLookup, hne]
      rw [hlk]

lemma mergeFileStep_titles (pids : Option (List String))
    (acc : List (String × List (String × TitleInfo)) × List (String × String))
    (file : List (List String)) (p t : String) :
    lookupRanks (mergeFileStep pids acc file).1 p t
      = lookupRanks acc.1 p t
        ++ (if platformKept pids p then fileRanks file p t else []) := by
  obtain ⟨hnd, hvals, _⟩ := parse_txt_file_inv file
  have hstep : (mergeFileStep pids acc file).1
      = (parse_txt_file file).1.foldl (platStep pids) acc.1 := by
    unfold mergeFileStep platStep
    rfl
  rw [hstep, lookupRanks_platStep_foldl pids _ hnd hvals acc.1 p t]
  congr 1
  unfold fileRanks
  by_cases hkept : platformKept pids p
  · rw [if_pos hkept, if_pos hkept, lookupRanks_eq_dictRanks]
  · rw [if_neg hkept, if_neg hkept]

lemma read_all_titles_merge_ranks_aux (pids : Option (List String)) :
    ∀ (files : List (List (List String)))
      (acc : List (String × List (String × TitleInfo)) × List (String × String))
      (p t : String),
      lookupRanks (files.foldl (mergeFileStep pids) acc).1 p t
        = lookupRanks acc.1 p t
          ++ (files.map (fun f =>
              if platformKept pids p then fileRanks f p t else [])).join := by
  intro files
  induction files with
  | nil => intro acc p t; simp
  | cons f fs ih =>
    intro acc p t
    simp only [List.foldl_cons, List.map_cons, List.join_cons]
    rw [ih (mergeFileStep pids acc f) p t, mergeFileStep_titles pids acc f p t,
      List.append_assoc]

/-! ### Display-name merge lemmas (C8) -/

lemma dictLookup_foldl_insert :
    ∀ (entries : List (String × String)), DictNodup entries →
      ∀ (m : List (String × String)) (p : String),
        dictLookup (entries.foldl (fun m kv => dictInsert m kv.1 kv.2) m) p
          = (match dictLookup entries p with
              | some v => some v
              | none => dictLookup m p) := by
  intro entries
  induction entries with
  | nil => intro _ m p; simp [dictLookup]
  | cons kv rest ih =>
    intro hnd m p
    obtain ⟨k0, v0⟩ := kv
    simp only [DictNodup, dictKeys, List.map_cons, List.nodup_cons] at hnd
    simp only [List.foldl_cons]
    rw [ih hnd.2]
    by_cases hp : p = k0
    · subst hp
      rw [dictLookup_eq_none_of_not_mem rest p (by simpa [dictKeys] using hnd.1)]
      simp [dictLookup, dictLookup_dictInsert_self]
    · have hne : k0 ≠ p := fun h => hp h.symm
      rw [dictLookup_dictInsert_ne _ _ _ _ hne]
      simp [dictLookup, hne]

lemma read_all_titles_merge_idn_aux (pids : Option (List String)) :
    ∀ (files : List (List (List String)))
      (acc : List (String × List (String × TitleInfo)) × List (String × String))
      (p : String),
      dictLookup (files.foldl (mergeFileStep pids) acc).2 p
        = files.foldl (fun cur f =>
            match dictLookup (parse_txt_file f).2 p with
            | some v => some v
            | none => cur) (dictLookup acc.2 p) := by
  intro files
  induction files with
  | nil => intro acc p; rfl
  | cons f fs ih =>
    intro acc p
    simp only [List.foldl_cons]
    rw [ih (mergeFileStep pids acc f) p]
    congr 1
    obtain ⟨_, _, hidn⟩ := parse_txt_file_inv f
    have hstep : (mergeFileStep pids acc f).2
        = (parse_txt_file f).2.foldl (fun m kv => dictInsert m kv.1 kv.2) acc.2 := rfl
    rw [hstep, dictLookup_foldl_insert _ hidn acc.2 p]

/-! ### Theorems: cache (C2, C10) -/

/-- C2: `get(k, maxAge)` on an existing entry returns the stored value iff
`now - storedAt < maxAge` (strictly); otherwise the entry is deleted from both
dicts and an immediately subsequent `get` also returns absent.  `set(k, v)`
stores `v` with `storedAt = now`, overwriting any prior entry. -/
theorem cache_get_set_freshness {V : Type} (s : CacheService V) (k : String)
    (ttl now : ℚ) (v : V) (t : ℚ)
    (hv : s.cache k = some v) (ht : s.timestamps k = some t) :
    (((s.get k ttl now).1 = some v) ↔ now - t < ttl)
    ∧ (¬ now - t < ttl →
        ((s.get k ttl now).2.cache k = none
          ∧ (s.get k ttl now).2.timestamps k = none
          ∧ ((s.get k ttl now).2.get k ttl now).1 = none))
    ∧ (∀ (w : V) (now2 : ℚ),
        (s.set k w now2).cache k = some w
          ∧ (s.set k w now2).timestamps k = some now2) := by
  by_cases hfresh : now - t < ttl
  · refine ⟨?_, fun h => absurd hfresh h, ?_⟩
    · simp [CacheService.get, hv, ht, hfresh]
    · intro w now2; exact ⟨by simp [CacheService.set], by simp [CacheService.set]⟩
  · refine ⟨?_, ?_, ?_⟩
    · simp [CacheService.get, hv, ht, hfresh]
    · intro _
      refine ⟨?_, ?_, ?_⟩
      · simp [CacheService.get, hv, ht, hfresh]
      · simp [CacheService.get, hv, ht, hfresh]
      · simp [CacheService.get, hv, ht, hfresh]
    · intro w now2; exact ⟨by simp [CacheService.set], by simp [CacheService.set]⟩

/-- Witness for C2 at a concrete state: store 42 under "k" at time 0, read
with `maxAge = 10` at time 11 (stale). -/
theorem cache_get_set_freshness_witness :
    ((((CacheService.empty ℕ).set "k" 42 0).get "k" 10 11).1 = some 42
        ↔ (11 : ℚ) - 0 < 10)
    ∧ (¬ (11 : ℚ) - 0 < 10 →
        (((((CacheService.empty ℕ).set "k" 42 0).get "k" 10 11).2).cache "k" = none
          ∧ ((((CacheService.empty ℕ).set "k" 42 0).get "k" 10 11).2).timestamps "k" = none
          ∧ (((((CacheService.empty ℕ).set "k" 42 0).get "k" 10 11).2).get "k" 10 11).1 = none))
    ∧ (∀ (w : ℕ) (now2 : ℚ),
        ((((CacheService.empty ℕ).set "k" 42 0).set "k" w now2).cache "k" = some w
          ∧ ((((CacheService.empty ℕ).set "k" 42 0).set "k" w now2).timestamps "k" = some now2))) :=
  cache_get_set_freshness ((CacheService.empty ℕ).set "k" 42 0) "k" 10 11 42 0
    (by simp [CacheService.set, CacheService.empty])
    (by simp [CacheService.set, CacheService.empty])

/-- C10: every cache operation preserves the invariant that the value dict and
the timestamp dict have the same keys. -/
theorem cache_keys_agree_invariant {V : Type} (s : CacheService V) (k : String)
    (v : V) (ttl now : ℚ) (h : s.KeysAgree) :
    ((s.get k ttl now).2.KeysAgree)
    ∧ (s.set k v now).KeysAgree
    ∧ ((s.delete k).2.KeysAgree)
    ∧ (s.clear.KeysAgree)
    ∧ (s.cleanup_expired ttl now).KeysAgree := by
  refine ⟨?_, ?_, ?_, ?_, ?_⟩
  · intro k'
    cases hc : s.cache k with
    | none => simpa [CacheService.get, hc] using h k'
    | some v0 =>
      cases ht : s.timestamps k with
      | none => simpa [CacheService.get, hc, ht] using h k'
      | some t0 =>
        by_cases hfresh : now - t0 < ttl
        · simpa [CacheService.get, hc, ht, hfresh] using h k'
        · by_cases hk : k' = k
          · simp [CacheService.get, hc, ht, hfresh, hk]
          · simpa [CacheService.get, hc, ht, hfresh, hk] using h k'
  · intro k'
    by_cases hk : k' = k
    · simp [CacheService.set, hk]
    · simpa [CacheService.set, hk] using h k'
  · intro k'
    cases hc : s.cache k with
    | none => simpa [CacheService.delete, hc] using h k'
    | some v0 =>
      by_cases hk : k' = k
      · simp [CacheService.delete, hc, hk]
      · simpa [CacheService.delete, hc, hk] using h k'
  · intro k'; simp [CacheService.clear, CacheService.empty]
  · intro k'
    by_cases he : (match s.timestamps k' with
      | some t => decide (ttl ≤ now - t)
      | none => false) = true
    · simp [CacheService.cleanup_expired, he]
    · simpa [CacheService.cleanup_expired, he] using h k'

/-- Witness for C10 at the empty cache. -/
theorem cache_keys_agree_invariant_witness :
    (((CacheService.empty ℕ).get "a" 1 0).2.KeysAgree)
    ∧ ((CacheService.empty ℕ).set "a" 7 0).KeysAgree
    ∧ (((CacheService.empty ℕ).delete "a").2.KeysAgree)
    ∧ ((CacheService.empty ℕ).clear.KeysAgree)
    ∧ ((CacheService.empty ℕ).cleanup_expired 1 0).KeysAgree :=
  cache_keys_agree_invariant (CacheService.empty ℕ) "a" 7 1 0 (fun _ => rfl)

/-! ### Theorems: weekday resolution (C3) -/

/-- C3 counterexample: on a Monday (`current_weekday = 0`), resolving
"last friday" (`target_weekday = 4`) walks back 3 days — the most recent
Friday itself — whereas the claim (most recent occurrence, then 7 more days)
demands 10 days. -/
theorem weekday_last_counterexample :
    get_date_by_weekday 0 4 true = 3
    ∧ spec_weekday_offset 0 4 true = 10
    ∧ get_date_by_weekday 0 4 true ≠ spec_weekday_offset 0 4 true :=
  ⟨by decide, by decide, by decide⟩

/-- C3 amended: "this w" resolves to the most recent occurrence of the weekday
(walking back from today, today included).  "last w" resolves to
`current_weekday - target_weekday + 7` days back, which is the most recent
occurrence minus a further 7 days only when the target weekday is ≤ today's
weekday; when the target weekday is later in the week than today's, it is the
most recent occurrence itself. -/
theorem weekday_resolution (cw tw : ℤ) (h0 : 0 ≤ cw) (h1 : cw < 7)
    (h2 : 0 ≤ tw) (h3 : tw < 7) :
    get_date_by_weekday cw tw false = spec_most_recent_weekday_offset cw tw
    ∧ get_date_by_weekday cw tw true =
        spec_most_recent_weekday_offset cw tw + (if tw ≤ cw then 7 else 0) := by
  unfold spec_most_recent_weekday_offset
  constructor
  · have hdef : get_date_by_weekday cw tw false
        = if cw - tw < 0 then cw - tw + 7 else cw - tw := rfl
    rw [hdef]
    split_ifs <;> omega
  · have hdef : get_date_by_weekday cw tw true = cw - tw + 7 := rfl
    rw [hdef]
    split_ifs <;> omega

/-- Witness for C3's amended theorem on a Wednesday resolving Friday. -/
theorem weekday_resolution_witness :
    get_date_by_weekday 2 4 false = spec_most_recent_weekday_offset 2 4
    ∧ get_date_by_weekday 2 4 true =
        spec_most_recent_weekday_offset 2 4 + (if (4 : ℤ) ≤ 2 then 7 else 0) :=
  weekday_resolution 2 4 (by decide) (by decide) (by decide) (by decide)

/-! ### Theorems: lifecycle classification (C6) -/

lemma topic_type_eq_flash_iff (counts : List ℕ) (td : ℕ) :
    topic_type counts td = "昙花一现" ↔
      active_days counts ≤ 2 ∧ avg_count counts * 2 < (max_count counts : ℚ) := by
  unfold topic_type
  split_ifs with h hs
  · exact iff_of_true rfl h
  · exact iff_of_false (by decide) h
  · exact iff_of_false (by decide) h

/-- C6: when the range has at least one mention, the topic type is "flash"
(昙花一现) iff `active_days ≤ 2` and the peak exceeds twice the average daily
count (the source's average: total mentions divided by the number of active
days); and a topic appearing exactly on days 1 and 7 of a 7-day range has
`active_days = 2` and is "flash" exactly when its peak exceeds twice that
average. -/
theorem lifecycle_flash_classification :
    (∀ (counts : List ℕ) (total_days : ℕ), (∃ c ∈ counts, 0 < c) →
        (topic_type counts total_days = "昙花一现" ↔
          active_days counts ≤ 2 ∧ avg_count counts * 2 < (max_count counts : ℚ)))
    ∧ (∀ c1 c7 : ℕ, 0 < c1 → 0 < c7 →
        active_days [c1, 0, 0, 0, 0, 0, c7] = 2
        ∧ (topic_type [c1, 0, 0, 0, 0, 0, c7] 7 = "昙花一现" ↔
            avg_count [c1, 0, 0, 0, 0, 0, c7] * 2
              < (max_count [c1, 0, 0, 0, 0, 0, c7] : ℚ))) := by
  constructor
  · intro counts td _
    exact topic_type_eq_flash_iff counts td
  · intro c1 c7 h1 h7
    have hact : active_days [c1, 0, 0, 0, 0, 0, c7] = 2 := by
      simp [active_days, List.countP_cons, h1, h7]
    refine ⟨hact, ?_⟩
    rw [topic_type_eq_flash_iff, hact]
    simp

/-- Witness for C6. -/
theorem lifecycle_flash_classification_witness :
    (topic_type [5, 0] 2 = "昙花一现" ↔
      active_days [5, 0] ≤ 2 ∧ avg_count [5, 0] * 2 < (max_count [5, 0] : ℚ))
    ∧ (active_days [1, 0, 0, 0, 0, 0, 1] = 2
        ∧ (topic_type [1, 0, 0, 0, 0, 0, 1] 7 = "昙花一现" ↔
            avg_count [1, 0, 0, 0, 0, 0, 1] * 2
              < (max_count [1, 0, 0, 0, 0, 0, 1] : ℚ))) :=
  ⟨lifecycle_flash_classification.1 [5, 0] 2 (by decide),
   lifecycle_flash_classification.2 1 1 (by decide) (by decide)⟩

/-! ### Theorems: news-weight monotonicity (C7) -/

lemma rank_score_sum_mono {r1 r2 : List ℕ}
    (h : List.Forall₂ (fun a b => b ≤ a) r1 r2) :
    (r1.map (fun r => (11 : ℚ) - (min r 10 : ℕ))).sum
      ≤ (r2.map (fun r => (11 : ℚ) - (min r 10 : ℕ))).sum := by
  induction h with
  | nil => simp
  | cons hab _ ih =>
    simp only [List.map_cons, List.sum_cons]
    refine add_le_add ?_ ih
    have hm : min _ 10 ≤ min _ 10 := min_le_min hab le_rfl
    have hm' : ((min _ 10 : ℕ) : ℚ) ≤ ((min _ 10 : ℕ) : ℚ) := Nat.cast_le.mpr hm
    linarith

lemma high_rank_count_mono : ∀ {r1 r2 : List ℕ},
    List.Forall₂ (fun a b => b ≤ a) r1 r2 →
    (r1.filter (fun r => decide (r ≤ 5))).length
      ≤ (r2.filter (fun r => decide (r ≤ 5))).length := by
  intro r1
  induction r1 with
  | nil => intro r2 h; cases h; simp
  | cons a t ih =>
    intro r2 h
    cases h with
    | cons hab ht =>
      rename_i b l2
      simp only [List.filter_cons]
      by_cases ha : a ≤ 5
      · have hb : b ≤ 5 := le_trans hab ha
        rw [if_pos (by simpa using ha), if_pos (by simpa using hb)]
        simpa using Nat.succ_le_succ (ih ht)
      · rw [if_neg (by simpa using ha)]
        by_cases hb : b ≤ 5
        · rw [if_pos (by simpa using hb)]
          exact le_trans (ih ht) (Nat.le_succ _)
        · rw [if_neg (by simpa using hb)]
          exact ih ht

lemma calculate_news_weight_le
    (r1 r2 : List ℕ) (c1 c2 : ℕ)
    (hne : r1 ≠ []) (hlen : r1.length = r2.length)
    (hsum : (r1.map (fun r => (11 : ℚ) - (min r 10 : ℕ))).sum
      ≤ (r2.map (fun r => (11 : ℚ) - (min r 10 : ℕ))).sum)
    (hcnt : (r1.filter (fun r => decide (r ≤ 5))).length
      ≤ (r2.filter (fun r => decide (r ≤ 5))).length)
    (hc : min c1 10 ≤ min c2 10) :
    calculate_news_weight r1 c1 5 ≤ calculate_news_weight r2 c2 5 := by
  have hne2 : r2 ≠ [] := by
    intro h2
    apply hne
    cases r1 with
    | nil => rfl
    | cons a t => rw [h2] at hlen; simp at hlen
  have hn : (0 : ℚ) < (r1.length : ℚ) := by
    have := List.length_pos.mpr hne
    exact_mod_cast this
  unfold calculate_news_weight
  rw [if_neg hne, if_neg hne2, ← hlen]
  have hcq : ((min c1 10 : ℕ) : ℚ) ≤ ((min c2 10 : ℕ) : ℚ) := Nat.cast_le.mpr hc
  have hcntq : ((r1.filter (fun r => decide (r ≤ 5))).length : ℚ)
      ≤ ((r2.filter (fun r => decide (r ≤ 5))).length : ℚ) := Nat.cast_le.mpr hcnt
  have hd1 : (r1.map (fun r => (11 : ℚ) - (min r 10 : ℕ))).sum / (r1.length : ℚ)
      ≤ (r2.map (fun r => (11 : ℚ) - (min r 10 : ℕ))).sum / (r1.length : ℚ) :=
    div_le_div_of_nonneg_right hsum hn.le
  have hd2 : ((r1.filter (fun r => decide (r ≤ 5))).length : ℚ) / (r1.length : ℚ)
      ≤ ((r2.filter (fun r => decide (r ≤ 5))).length : ℚ) / (r1.length : ℚ) :=
    div_le_div_of_nonneg_right hcntq hn.le
  nlinarith [hd1, hd2, hcq]

/-- C7: the news weight is monotonically non-decreasing under (i) lowering any
ranks while holding the count fixed, (ii) increasing the occurrence count while
holding the rank list fixed (in particular up to the cap of 10), and (iii)
increasing the number of ranks ≤ 5 while the rank-score total and list length
stay fixed. -/
theorem news_weight_monotone :
    (∀ (r1 r2 : List ℕ) (c : ℕ), r1 ≠ [] →
        List.Forall₂ (fun a b => b ≤ a) r1 r2 →
        calculate_news_weight r1 c 5 ≤ calculate_news_weight r2 c 5)
    ∧ (∀ (ranks : List ℕ) (c c' : ℕ), ranks ≠ [] → c ≤ c' →
        calculate_news_weight ranks c 5 ≤ calculate_news_weight ranks c' 5)
    ∧ (∀ (r1 r2 : List ℕ) (c : ℕ), r1 ≠ [] → r1.length = r2.length →
        (r1.map (fun r => (11 : ℚ) - (min r 10 : ℕ))).sum
          = (r2.map (fun r => (11 : ℚ) - (min r 10 : ℕ))).sum →
        (r1.filter (fun r => decide (r ≤ 5))).length
          ≤ (r2.filter (fun r => decide (r ≤ 5))).length →
        calculate_news_weight r1 c 5 ≤ calculate_news_weight r2 c 5) := by
  refine ⟨?_, ?_, ?_⟩
  · intro r1 r2 c hne h
    exact calculate_news_weight_le r1 r2 c c hne h.length_eq
      (rank_score_sum_mono h) (high_rank_count_mono h) le_rfl
  · intro ranks c c' hne hcc
    exact calculate_news_weight_le ranks ranks c c' hne rfl le_rfl le_rfl
      (min_le_min hcc le_rfl)
  · intro r1 r2 c hne hlen hsum hcnt
    exact calculate_news_weight_le r1 r2 c c hne hlen (le_of_eq hsum) hcnt le_rfl

/-- Witness for C7. -/
theorem news_weight_monotone_witness :
    (calculate_news_weight [3] 1 5 ≤ calculate_news_weight [2] 1 5)
    ∧ (calculate_news_weight [3] 1 5 ≤ calculate_news_weight [3] 2 5)
    ∧ (calculate_news_weight [6, 3] 1 5 ≤ calculate_news_weight [4, 5] 1 5) :=
  ⟨news_weight_monotone.1 [3] [2] 1 (by decide)
      (List.Forall₂.cons (by decide) List.Forall₂.nil),
   news_weight_monotone.2.1 [3] 1 2 (by decide) (by decide),
   news_weight_monotone.2.2 [6, 3] [4, 5] 1 (by decide) (by decide)
      (by norm_num) (by decide)⟩

/-! ### Theorems: day-merge rank concatenation (C1) -/

/-- C1 counterexample: a single file whose section `p` lists the same title at
rank 3 and then rank 7 produces `ranks = [7]` in the merged day index — the
same-file occurrence overwrites rather than concatenates — refuting the claim
that the merged record would be `[3, 7]`. -/
theorem day_merge_same_file_counterexample :
    lookupRanks (read_all_titles_merge [[["p", "3. t", "7. t"]]] none).1 "p" "t" = [7]
    ∧ lookupRanks (read_all_titles_merge [[["p", "3. t", "7. t"]]] none).1 "p" "t"
        ≠ [3, 7] :=
  ⟨by decide, by decide⟩

/-- C1 amended: across files, the merged rank list of each `(platform, title)`
is exactly the concatenation, in file read order, of the rank list each file
contributes — never deduplicated or sorted; but within a single file a
repeated `(platform, title)` is overwritten, so only the last occurrence of a
title in a section survives (with a singleton rank list). -/
theorem day_merge_rank_concat :
    (∀ (files : List (List (List String))) (p t : String),
        lookupRanks (read_all_titles_merge files none).1 p t
          = (files.map (fun f => fileRanks f p t)).join)
    ∧ (∀ (lines : List String) (line : String) (t : String) (info : TitleInfo),
        parseTitleLine line.toList = some (t, info) →
        dictLookup (parseSectionBody (lines ++ [line])) t = some info) := by
  constructor
  · intro files p t
    unfold read_all_titles_merge
    rw [read_all_titles_merge_ranks_aux none files ([], []) p t]
    simp [lookupRanks, dictLookup, platformKept]
  · intro lines line t info hp
    unfold parseSectionBody
    rw [List.foldl_append]
    simp only [List.foldl_cons, List.foldl_nil, hp]
    exact dictLookup_dictInsert_self _ _ _

/-- Witness for C1's amended theorem: appending `"7. t"` to a section already
containing `"3. t"` leaves the title bound to the last rank only. -/
theorem day_merge_rank_concat_witness :
    dictLookup (parseSectionBody (["3. t"] ++ ["7. t"])) "t"
      = some ⟨[7], "", ""⟩ :=
  day_merge_rank_concat.2 ["3. t"] "7. t" "t" ⟨[7], "", ""⟩ (by decide)

/-! ### Theorems: display-name merge (C8) -/

/-- C8 counterexample: if an earlier file names platform `p` "N1" and a later
file names it "N2", the merged `id_to_name` maps `p` to "N2"
(`id_to_name.update(...)` overwrites), refuting the claim that the earlier
display name is left unchanged. -/
theorem idname_overwrite_counterexample :
    dictLookup (read_all_titles_merge
        [[["p | N1", "1. t"]], [["p | N2", "1. t"]]] none).2 "p" = some "N2"
    ∧ dictLookup (read_all_titles_merge
        [[["p | N1", "1. t"]], [["p | N2", "1. t"]]] none).2 "p" ≠ some "N1" :=
  ⟨by decide, by decide⟩

/-- C8 amended: when merging a day's files in ascending name order, the
display name recorded for a platform id is the one from the **last** file that
defines that id — later files overwrite earlier display names, whether or not
the id was already present. -/
theorem idname_later_file_wins (files : List (List (List String))) (p : String) :
    dictLookup (read_all_titles_merge files none).2 p
      = files.foldl (fun cur f =>
          match dictLookup (parse_txt_file f).2 p with
          | some v => some v
          | none => cur) none := by
  unfold read_all_titles_merge
  rw [read_all_titles_merge_idn_aux none files ([], []) p]
  rfl

/-! ### Theorems: unified search empty-result semantics (C9) -/

lemma latestDay_foldl_isSome
    (l : List (ℕ × (List (String × List (String × TitleInfo)) × List (String × String)))) :
    ∀ (m : ℕ),
      (l.foldl (fun acc kv =>
        match acc with
        | none => some kv.1
        | some m => some (max m kv.1)) (some m)).isSome = true := by
  induction l with
  | nil => intro m; rfl
  | cons kv rest ih => intro m; exact ih (max m kv.1)

lemma latestDay_eq_none_iff
    (corpus : List (ℕ × (List (String × List (String × TitleInfo)) × List (String × String)))) :
    latestDay corpus = none ↔ corpus = [] := by
  constructor
  · intro h
    cases corpus with
    | nil => rfl
    | cons kv rest =>
      have := latestDay_foldl_isSome rest kv.1
      unfold latestDay at h
      simp only [List.foldl_cons] at h
      rw [h] at this
      simp at this
  · intro h; subst h; rfl

lemma search_range_success
    (corpus : List (ℕ × (List (String × List (String × TitleInfo)) × List (String × String))))
    (query : String) (mode : SearchMode) (s e limit : ℕ) (sortBy : SortBy) (th : ℚ) :
    (search_range corpus query mode s e limit sortBy th).success = true := by
  unfold search_range
  by_cases h : collect_matches corpus mode query th s e = []
  · simp [h]
  · simp [h]

/-- C9: with an explicit date range, a unified search that matches nothing
returns a success result with an empty result list, total 0 and a descriptive
message, never an error; the `NO_DATA_AVAILABLE` failure occurs only when no
date range is given and no corpus data exists at all. -/
theorem search_zero_matches_success :
    (∀ (corpus : List (ℕ × (List (String × List (String × TitleInfo)) × List (String × String))))
        (query : String) (mode : SearchMode) (s e limit : ℕ) (sortBy : SortBy) (th : ℚ),
        (∃ d, s ≤ d ∧ d ≤ e ∧ (corpusLookup corpus d).isSome = true) →
        collect_matches corpus mode query (max 0 (min 1 th)) s e = [] →
        (search_news_unified corpus query mode (some (s, e)) limit sortBy th).success = true
          ∧ (search_news_unified corpus query mode (some (s, e)) limit sortBy th).results = []
          ∧ (search_news_unified corpus query mode (some (s, e)) limit sortBy th).total = 0
          ∧ (search_news_unified corpus query mode (some (s, e)) limit sortBy th).message.isSome
              = true
          ∧ (search_news_unified corpus query mode (some (s, e)) limit sortBy th).errorCode
              = none)
    ∧ (∀ (corpus : List (ℕ × (List (String × List (String × TitleInfo)) × List (String × String))))
        (query : String) (mode : SearchMode) (dateRange : Option (ℕ × ℕ)) (limit : ℕ)
        (sortBy : SortBy) (th : ℚ),
        (search_news_unified corpus query mode dateRange limit sortBy th).success = false →
        dateRange = none ∧ corpus = []) := by
  constructor
  · intro corpus query mode s e limit sortBy th _hdata hempty
    have hdef : search_news_unified corpus query mode (some (s, e)) limit sortBy th
        = search_range corpus query mode s e limit sortBy (max 0 (min 1 th)) := rfl
    rw [hdef]
    unfold search_range
    rw [hempty]
    simp
  · intro corpus query mode dateRange limit sortBy th hfail
    cases dateRange with
    | some se =>
      have hdef : search_news_unified corpus query mode (some se) limit sortBy th
          = search_range corpus query mode se.1 se.2 limit sortBy (max 0 (min 1 th)) := rfl
      rw [hdef, search_range_success] at hfail
      simp at hfail
    | none =>
      cases hl : latestDay corpus with
      | none =>
        exact ⟨rfl, (latestDay_eq_none_iff corpus).mp hl⟩
      | some d =>
        have hdef : search_news_unified corpus query mode none limit sortBy th
            = search_range corpus query mode d d limit sortBy (max 0 (min 1 th)) := by
          unfold search_news_unified
          rw [hl]
        rw [hdef, search_range_success] at hfail
        simp at hfail

/-- Witness for C9: a corpus with day 0 present but no title matching "zzz". -/
theorem search_zero_matches_success_witness :
    (search_news_unified search_witness_corpus "zzz" SearchMode.keyword (some (0, 0)) 50
        SortBy.relevance (6/10)).success = true
    ∧ (search_news_unified search_witness_corpus "zzz" SearchMode.keyword (some (0, 0)) 50
        SortBy.relevance (6/10)).results = []
    ∧ (search_news_unified search_witness_corpus "zzz" SearchMode.keyword (some (0, 0)) 50
        SortBy.relevance (6/10)).total = 0
    ∧ (search_news_unified search_witness_corpus "zzz" SearchMode.keyword (some (0, 0)) 50
        SortBy.relevance (6/10)).message.isSome = true
    ∧ (search_news_unified search_witness_corpus "zzz" SearchMode.keyword (some (0, 0)) 50
        SortBy.relevance (6/10)).errorCode = none :=
  search_zero_matches_success.1 search_witness_corpus "zzz" SearchMode.keyword 0 0 50
    SortBy.relevance (6/10) ⟨0, le_rfl, le_rfl, by decide⟩ (by decide)

/-! ### Theorems: fuzzy search with threshold above 1 (C4) -/

/-- C4 counterexample: with threshold 1.1 (clamped to 1.0), a fuzzy search for
"hello world" returns the title "foo world and hello" — via the keyword-set
overlap fallback — even though it does not contain the query as a
case-insensitive substring, refuting "only exact-substring matches". -/
theorem fuzzy_substring_only_counterexample :
    ((search_news_unified fuzzy_counter_corpus "hello world" SearchMode.fuzzy
        (some (0, 0)) 50 SortBy.relevance (11/10)).results.map NewsItem.title)
      = ["foo world and hello"]
    ∧ containsSub (lowerList "hello world") (lowerList "foo world and hello") = false :=
  ⟨by decide, by decide⟩

/-- C4 amended: a similarity threshold above 1 is clamped to 1.0 and the
search behaves exactly as with threshold 1.0; at threshold 1.0 a title is
accepted iff it contains the query as a case-insensitive substring, or the
sequence ratio reaches 1, or the keyword-set fallback fires (both keyword sets
non-empty and at least half of the query's keywords occur in the title). -/
theorem fuzzy_threshold_clamp :
    (∀ th : ℚ, 1 < th → max 0 (min 1 th) = 1)
    ∧ (∀ (corpus : List (ℕ × (List (String × List (String × TitleInfo)) × List (String × String))))
        (query : String) (dateRange : Option (ℕ × ℕ)) (limit : ℕ) (sortBy : SortBy)
        (th : ℚ), 1 < th →
        search_news_unified corpus query SearchMode.fuzzy dateRange limit sortBy th
          = search_news_unified corpus query SearchMode.fuzzy dateRange limit sortBy 1)
    ∧ (∀ q t : String, ((fuzzy_match q t 1).1 = true) ↔
        (containsSub (lowerList q) (lowerList t) = true
          ∨ 1 ≤ calculate_similarity q t
          ∨ (¬ (extract_keywords q 2).dedup.isEmpty = true
              ∧ ¬ (extract_keywords t 2).dedup.isEmpty = true
              ∧ (1 : ℚ)/2 ≤ (((extract_keywords q 2).dedup.filter
                    (fun w => (extract_keywords t 2).dedup.contains w)).length : ℚ)
                  / ((extract_keywords q 2).dedup.length : ℚ)))) := by
  have hclamp : ∀ th : ℚ, 1 < th → max 0 (min 1 th) = 1 := by
    intro th hth
    rw [min_eq_left hth.le]
    exact max_eq_right (by norm_num)
  refine ⟨hclamp, ?_, ?_⟩
  · intro corpus query dateRange limit sortBy th hth
    have h1 : max 0 (min 1 th) = (1 : ℚ) := hclamp th hth
    have h2 : max 0 (min 1 (1 : ℚ)) = 1 := by norm_num
    unfold search_news_unified
    rw [h1, h2]
  · intro q t
    by_cases h1 : containsSub (lowerList q) (lowerList t) = true
    · simp [fuzzy_match, h1]
    · by_cases h2 : (1 : ℚ) ≤ calculate_similarity q t
      · simp [fuzzy_match, h1, h2]
      · by_cases h3 : (extract_keywords q 2).dedup.isEmpty = true
        · simp [fuzzy_match, h1, h2, h3]
        · by_cases h4 : (extract_keywords t 2).dedup.isEmpty = true
          · simp [fuzzy_match, h1, h2, h3, h4]
          · simp only [fuzzy_match, h1, h2, h3, h4]
            simp [h1, h2, h3, h4]
            split_ifs with h5 <;> simp [h5]

/-- Witness for C4 at threshold 1.1. -/
theorem fuzzy_threshold_clamp_witness :
    max 0 (min 1 (11/10 : ℚ)) = 1
    ∧ search_news_unified fuzzy_counter_corpus "hello world" SearchMode.fuzzy
        (some (0, 0)) 50 SortBy.relevance (11/10)
      = search_news_unified fuzzy_counter_corpus "hello world" SearchMode.fuzzy
        (some (0, 0)) 50 SortBy.relevance 1 :=
  ⟨fuzzy_threshold_clamp.1 (11/10) (by norm_num),
   fuzzy_threshold_clamp.2.1 fuzzy_counter_corpus "hello world" (some (0, 0)) 50
     SortBy.relevance (11/10) (by norm_num)⟩

/-! ### Theorems: history-relevance scoring (C5) -/

/-- C5 counterexample: for reference "alpha beta" and title "alpha gamma" the
pipeline's combined score is `0.7 * (1/3) + 0.3 * (2/3) = 13/30` — the keyword
overlap is the symmetric Jaccard ratio 1/3 — whereas the claim's formula
(shared tokens over the reference token count, 1/2) would give 11/20. -/
theorem related_overlap_not_reference_ratio :
    (search_related_news_history related_counter_corpus "alpha beta" 0 0 0).map
        RelatedItem.similarity_score = [13/30]
    ∧ calculate_keyword_overlap (extract_keywords "alpha beta" 2)
        (extract_keywords "alpha gamma" 2) = 1/3
    ∧ spec_keyword_overlap (extract_keywords "alpha beta" 2)
        (extract_keywords "alpha gamma" 2) = 1/2
    ∧ spec_keyword_overlap (extract_keywords "alpha beta" 2)
          (extract_keywords "alpha gamma" 2) * ((7 : ℚ)/10)
        + calculate_similarity "alpha beta" "alpha gamma" * ((3 : ℚ)/10) = 11/20
    ∧ (13/30 : ℚ) ≠ 11/20 :=
  ⟨by decide, by decide, by decide, by decide, by decide⟩

/-- C5 amended: every item returned by the history-relevance scan carries
`similarity_score = keyword_overlap * 0.7 + title_similarity * 0.3`, where the
keyword overlap is `_calculate_keyword_overlap` — the symmetric Jaccard ratio
of the two keyword sets (intersection over union), not the ratio over the
reference token count — the title similarity is the sequence ratio, and the
score reaches the caller's threshold. -/
theorem related_history_score :
    ∀ (corpus : List (ℕ × (List (String × List (String × TitleInfo)) × List (String × String))))
      (reference_text : String) (th : ℚ) (s e : ℕ) (item : RelatedItem),
      item ∈ search_related_news_history corpus reference_text th s e →
      item.similarity_score
          = item.keyword_overlap * ((7 : ℚ)/10) + item.text_similarity * ((3 : ℚ)/10)
        ∧ item.keyword_overlap
          = calculate_keyword_overlap (extract_keywords reference_text 2)
              (extract_keywords item.title 2)
        ∧ item.text_similarity = calculate_similarity reference_text item.title
        ∧ th ≤ item.similarity_score := by
  intro corpus reference_text th s e item hmem
  unfold search_related_news_history at hmem
  rw [List.mem_join] at hmem
  obtain ⟨l, hl, hitem⟩ := hmem
  rw [List.mem_map] at hl
  obtain ⟨d, _, rfl⟩ := hl
  cases hc : corpusLookup corpus d with
  | none => rw [hc] at hitem; simp at hitem
  | some dd =>
    rw [hc] at hitem
    unfold related_day at hitem
    rw [List.mem_join] at hitem
    obtain ⟨l2, hl2, hitem⟩ := hitem
    rw [List.mem_map] at hl2
    obtain ⟨pkv, _, rfl⟩ := hl2
    rw [List.mem_filterMap] at hitem
    obtain ⟨tkv, _, hf⟩ := hitem
    simp only at hf
    rw [Option.ite_none_right_eq_some] at hf
    obtain ⟨hth, hsome⟩ := hf
    obtain rfl := Option.some.inj hsome
    exact ⟨rfl, rfl, rfl, hth⟩

/-- Witness for C5: the reference itself scores `1` and is returned. -/
theorem related_history_score_witness :
    (⟨"alpha beta", "p", 0, 1, 1, 1⟩ : RelatedItem).similarity_score
        = (⟨"alpha beta", "p", 0, 1, 1, 1⟩ : RelatedItem).keyword_overlap * ((7 : ℚ)/10)
          + (⟨"alpha beta", "p", 0, 1, 1, 1⟩ : RelatedItem).text_similarity * ((3 : ℚ)/10)
    ∧ (⟨"alpha beta", "p", 0, 1, 1, 1⟩ : RelatedItem).keyword_overlap
        = calculate_keyword_overlap (extract_keywords "alpha beta" 2)
            (extract_keywords (⟨"alpha beta", "p", 0, 1, 1, 1⟩ : RelatedItem).title 2)
    ∧ (⟨"alpha beta", "p", 0, 1, 1, 1⟩ : RelatedItem).text_similarity
        = calculate_similarity "alpha beta" (⟨"alpha beta", "p", 0, 1, 1, 1⟩ : RelatedItem).title
    ∧ (0 : ℚ) ≤ (⟨"alpha beta", "p", 0, 1, 1, 1⟩ : RelatedItem).similarity_score :=
  related_history_score related_witness_corpus "alpha beta" 0 0 0
    ⟨"alpha beta", "p", 0, 1, 1, 1⟩ (by decide)

end TrendRadar
